import Mathlib

/-!
Verification of the audit data store and scoring engine of the
`atu-auditing-app` repository.

The development shallowly embeds:
  * the typed audit record (`src/types/waste.ts`),
  * the EAV persistence layer (`src/lib/database.ts`):
    `saveWasteAudit`, `updateWasteAudit`, `getWasteAudit` over the
    `waste_data` table, and
  * the scoring engine (`src/app/api/waste-audit/calculate/route.ts`):
    `calculateWasteMetrics`, `generateQuickWins`,
    `calculatePreventionScore`, `calculateOverallScore`.

JavaScript numbers are modelled as rationals (`ℚ`); database integers as
`Int`; the SQLite `waste_data` table as a list of rows in rowid
(insertion) order.  A transaction that fails mid-way rolls back, which is
modelled by returning the pre-transaction table.
-/

/- ### Enumerations from `src/types/waste.ts`
Each TS string enum becomes an inductive type; the runtime string value of
a member is only needed where the code compares it, and those comparisons
are modelled as equalities of constructors. -/

inductive BinLocation
  | kitchen | main_hall | toilets | outdoor | office | other
  deriving DecidableEq, Repr

inductive BinType
  | general_waste | dry_recyclables | organic_compost | glass | batteries | weee
  deriving DecidableEq, Repr

inductive BinColour
  | black_grey | blue | green | brown | other
  deriving DecidableEq, Repr

inductive LidType
  | open_top | flip_lid | restricted_opening | locked
  deriving DecidableEq, Repr

inductive CollectionFrequency
  | daily | twice_weekly | weekly | fortnightly | monthly
  deriving DecidableEq, Repr

inductive DayOfWeek
  | monday | tuesday | wednesday | thursday | friday | saturday | sunday
  deriving DecidableEq, Repr

inductive ContaminationType
  | plastic_bags | food_waste | liquids | non_recyclables | other
  deriving DecidableEq, Repr

inductive WasteStream
  | general | dry_recyclables | organic | glass | hazardous
  deriving DecidableEq, Repr

inductive FoodWasteDisposal
  | brown_bin | composter | food_digester | waste_disposal_unit | general_waste
  deriving DecidableEq, Repr

inductive CompostingSystem
  | none | traditional | bokashi | worm_farm | other
  deriving DecidableEq, Repr

inductive CompostUsage
  | rarely | monthly | weekly | daily
  deriving DecidableEq, Repr

inductive ImplementationLevel
  | not_implemented | planned | partially | full
  deriving DecidableEq, Repr

inductive YesNoPlanned
  | yes | no | planned
  deriving DecidableEq, Repr

inductive FeedbackMechanism
  | none | suggestion_box | email | regular_meetings
  deriving DecidableEq, Repr

inductive MonitoringFrequency
  | never | occasionally | monthly | weekly
  deriving DecidableEq, Repr

/-- Model of the TS union type `'synced' | 'pending' | 'offline'`. -/
inductive SyncStatus
  | synced | pending | offline
  deriving DecidableEq, Repr

/-- Runtime string value of a `SyncStatus` member. -/
def SyncStatus.toStr : SyncStatus → String
  | .synced => "synced"
  | .pending => "pending"
  | .offline => "offline"

/- ### Section interfaces from `src/types/waste.ts`
Optional TS fields (`x?: T`) become `Option` fields; `number` becomes `ℚ`. -/

/-- Interface `BinInventoryItem` (Section A items). -/
structure BinInventoryItem where
  id : Option String := none
  location : BinLocation
  binType : BinType
  sizeInLitres : ℚ
  customSize : Option ℚ := none
  colour : BinColour
  lidType : LidType
  signagePresent : Bool
  signageQuality : ℚ
  photoPath : Option String := none
  deriving DecidableEq, Repr

/-- Interface `FacilityWasteInfrastructure` (Section A). -/
structure FacilityWasteInfrastructure where
  binInventory : List BinInventoryItem
  totalBins : ℚ
  outdoorBinsPresent : Bool
  notes : Option String := none
  deriving DecidableEq, Repr

/-- Interface `WasteStreamAssessment` (Section B items). -/
structure WasteStreamAssessment where
  wasteStream : WasteStream
  estimatedWeeklyVolumeLitres : ℚ
  collectionFrequency : CollectionFrequency
  collectionDays : List DayOfWeek
  contaminationLevel : ℚ
  commonContaminants : List ContaminationType
  contractorName : Option String := none
  annualCostEuros : Option ℚ := none
  notes : Option String := none
  contaminationPhotoPath : Option String := none
  deriving DecidableEq, Repr

/-- Interface `WasteStreamsAssessment` (Section B). -/
structure WasteStreamsAssessment where
  assessments : List WasteStreamAssessment
  totalAnnualCost : Option ℚ := none
  primaryContractor : Option String := none
  deriving DecidableEq, Repr

/-- Interface `SpecialWasteItem` (Section C items). -/
structure SpecialWasteItem where
  type : String
  status : YesNoPlanned
  location : Option String := none
  collectionFrequency : Option CollectionFrequency := none
  notes : Option String := none
  deriving DecidableEq, Repr

/-- Interface `SpecialWasteManagement` (Section C). -/
structure SpecialWasteManagement where
  batteryCollection : SpecialWasteItem
  weeeCollection : SpecialWasteItem
  printerCartridges : SpecialWasteItem
  fluorescentTubes : SpecialWasteItem
  chemicalPaintStorage : SpecialWasteItem
  confidentialWasteShredding : SpecialWasteItem
  textilesCollection : SpecialWasteItem
  mobilePhoneRecycling : SpecialWasteItem
  deriving DecidableEq, Repr

/-- Interface `OrganicWasteComposting` (Section D). -/
structure OrganicWasteComposting where
  kitchenPresent : Bool
  foodWasteVolumeKgPerWeek : Option ℚ := none
  foodWasteDisposalMethod : Option FoodWasteDisposal := none
  compostingSystem : CompostingSystem
  compostingCapacityLitres : Option ℚ := none
  compostingUsageLevel : Option CompostUsage := none
  coffeeGroundsDisposal : Option String := none
  cookingOilDisposal : Option String := none
  notes : Option String := none
  deriving DecidableEq, Repr

/-- Interface `WastePreventionMeasures` (Section E). -/
structure WastePreventionMeasures where
  procurementPolicy : ImplementationLevel
  reusableCupsBottles : ImplementationLevel
  waterFountainsRefillStations : ImplementationLevel
  paperlessCommunication : ImplementationLevel
  donationSystem : ImplementationLevel
  repairCafe : ImplementationLevel
  bulkBuying : ImplementationLevel
  eliminateSingleUse : ImplementationLevel
  notes : Option String := none
  deriving DecidableEq, Repr

/-- Interface `BehavioralTraining` (Section F). -/
structure BehavioralTraining where
  lastWasteTrainingDate : Option String := none
  wasteChampionAppointed : Bool
  wasteChampionName : Option String := none
  userEducationMaterialsDisplayed : Bool
  educationMaterialsPhotoPath : Option String := none
  wasteMonitoringRecordsKept : MonitoringFrequency
  feedbackMechanism : FeedbackMechanism
  additionalNotes : Option String := none
  deriving DecidableEq, Repr

/-- The payload of one of the six structured sections; this is the value
denoted by the JSON text that `saveWasteAudit` / `updateWasteAudit` store
under a section key via `JSON.stringify`. -/
inductive SectionVal
  | facility (v : FacilityWasteInfrastructure)
  | streams (v : WasteStreamsAssessment)
  | special (v : SpecialWasteManagement)
  | organic (v : OrganicWasteComposting)
  | prevention (v : WastePreventionMeasures)
  | behavioral (v : BehavioralTraining)
  deriving DecidableEq, Repr

/- ### Text values of the `response` column

The `response` column holds TEXT.  The store writes exactly four shapes of
text: the canonical `JSON.stringify` encoding of a structured section
payload (an object, hence text beginning with a brace), the decimal
rendering `n.toString()` of a number, the rendering `"true"`/`"false"` of a
boolean, and verbatim plain strings (sync status words, ISO timestamps).
We model a text by which of these shapes it has; `JSON.stringify` is
injective on section payloads, so `Resp.sec v` stands for the unique
canonical JSON text of `v`. -/

/-- Model of a JS string stored in the `response` TEXT column of
`waste_data`.
  * `sec v` — the canonical JSON text of the structured payload `v`;
  * `num n` — the canonical decimal text of the integer `n` (for example
    `"5"`, `"-2"`);
  * `bool b` — the text `"true"` or `"false"`;
  * `scalJson s` — a text `s` that is valid JSON but is not one of the
    three canonical shapes above (for example `"\"hi\""`, `"null"`,
    `"3.5"`);
  * `raw s` — a text `s` that is NOT valid JSON (bare words such as
    `"synced"`, ISO timestamps, corrupted section text).
`JSON.parse` on a `scalJson` text succeeds with a primitive value that the
reconstructor would assign, untyped, to a section field; no claim of the
specification exercises that corner and `jsonParse` below conservatively
treats it as a non-section value. -/
inductive Resp
  | sec (v : SectionVal)
  | num (n : Int)
  | bool (b : Bool)
  | scalJson (s : String)
  | raw (s : String)
  deriving DecidableEq, Repr

/-- Behaviour of `JSON.parse(response)` at a section key, as used by
`getWasteAudit` (database.ts line 192): the parse yields a structured
section payload exactly for the canonical JSON text of such a payload; on
text that is not valid JSON it throws, which the caller catches and turns
into "leave the section absent". -/
def jsonParse : Resp → Option SectionVal
  | .sec v => some v
  | _ => none

/-- Drops leading whitespace, as `parseInt` does before scanning. -/
def skipWs : List Char → List Char
  | [] => []
  | c :: cs => if c.isWhitespace then skipWs cs else c :: cs

/-- Value of a decimal digit character, `none` for a non-digit. -/
def digitVal (c : Char) : Option Nat :=
  if c.isDigit then some (c.toNat - 48) else none

/-- Value of a hexadecimal digit character, `none` otherwise. -/
def hexVal (c : Char) : Option Nat :=
  if c.isDigit then some (c.toNat - 48)
  else if 97 ≤ c.toNat ∧ c.toNat ≤ 102 then some (c.toNat - 87)
  else if 65 ≤ c.toNat ∧ c.toNat ≤ 70 then some (c.toNat - 55)
  else none

/-- Scans the maximal decimal-digit prefix, accumulating into `acc`;
`none` means no digit has been seen (the `NaN` outcome). -/
def parseDigits : List Char → Option Nat → Option Nat
  | [], acc => acc
  | c :: cs, acc =>
    match digitVal c with
    | some v => parseDigits cs (some (acc.getD 0 * 10 + v))
    | none => acc

/-- Scans the maximal hexadecimal-digit prefix. -/
def parseHexDigits : List Char → Option Nat → Option Nat
  | [], acc => acc
  | c :: cs, acc =>
    match hexVal c with
    | some v => parseHexDigits cs (some (acc.getD 0 * 16 + v))
    | none => acc

/-- Model of JavaScript `parseInt(s)` (radix argument omitted): skip
leading whitespace, read an optional sign, then either a `0x`/`0X`
hexadecimal literal or a maximal run of decimal digits; the result is
`NaN` (modelled as `none`) when no digit is found.  `parseInt` never
throws. -/
def jsParseIntStr (s : String) : Option Int :=
  let cs := skipWs s.toList
  let sgnRest : Int × List Char :=
    match cs with
    | c :: rest =>
      if c = Char.ofNat 45 then (-1, rest)
      else if c = Char.ofNat 43 then (1, rest)
      else (1, cs)
    | [] => (1, [])
  let mag : Option Nat :=
    match sgnRest.2 with
    | c0 :: c1 :: rest =>
      if c0 = Char.ofNat 48 ∧ (c1 = Char.ofNat 120 ∨ c1 = Char.ofNat 88) then
        parseHexDigits rest none
      else parseDigits sgnRest.2 none
    | _ => parseDigits sgnRest.2 none
  mag.map (fun n => sgnRest.1 * (n : Int))

/-- JavaScript `parseInt` applied to a stored response text
(database.ts line 197).  The canonical JSON text of a section payload
begins with a brace, so it has no digit prefix; `"true"`/`"false"` have
none either. -/
def jsParseIntResp : Resp → Option Int
  | .num n => some n
  | .bool _ => none
  | .sec _ => none
  | .scalJson s => jsParseIntStr s
  | .raw s => jsParseIntStr s

/-- The comparison `response === 'true'` (database.ts line 199).  Only the
boolean text `"true"` and the literal string `"true"` compare equal; the
decimal text of an integer and the brace-initial JSON text of a section
payload never do. -/
def respIsStrTrue : Resp → Bool
  | .bool b => b
  | .num _ => false
  | .sec _ => false
  | .scalJson s => s == "true"
  | .raw s => s == "true"

/- ### The `waste_data` table -/

/-- One row of `waste_data`.  The autoincrement `id` column is left
implicit: the table is modelled as a list in rowid order, inserts append,
and a plain `SELECT` returns rows in that order. -/
structure Row where
  audit_id : Int
  item_key : String
  response : Resp
  notes : String
  deriving DecidableEq, Repr

/-- The `waste_data` table, in rowid (insertion) order. -/
abbrev Table := List Row

/-- One insert through the `waste_data` foreign key: it succeeds by
appending the row and fails (SQLite raises `FOREIGN KEY constraint
failed`) when the parent audit id is missing from `audits`.  The
`audits` table is abstracted to its list of ids, the only part the
foreign key consults. -/
def insertRow (audits : List Int) (tbl : Table) (row : Row) : Except String Table :=
  if row.audit_id ∈ audits then .ok (tbl ++ [row]) else .error "FOREIGN KEY constraint failed"

/-- Runs a sequence of inserts inside a transaction body; the first
failure aborts the rest. -/
def insertRows (audits : List Int) (rows : List Row) (tbl : Table) : Except String Table :=
  match rows with
  | [] => .ok tbl
  | row :: rest =>
    match insertRow audits tbl row with
    | .ok t2 => insertRows audits rest t2
    | .error e => .error e

/-- The `DELETE FROM waste_data WHERE audit_id = ?` statement. -/
def deleteWasteRows (auditId : Int) (tbl : Table) : Table :=
  tbl.filter (fun r => !(r.audit_id == auditId))

/- ### Reconstruction (`getWasteAudit`) -/

/-- The object `getWasteAudit` reconstructs (a `Partial<WasteAuditData>`
seeded with `{ auditId }`).  The six section fields hold whatever
`JSON.parse` produced — the code assigns `JSON.parse(response)` to the
field named by the item key without checking that the payload matches the
declared section type, so the fields share the type `SectionVal`.
`completedSections` holds the raw `parseInt` outcome (`some none` models
`NaN`); `syncStatus` and `lastSaved` hold the stored text verbatim.  The
optional `id` property of `WasteAuditData` is never assigned by the
reconstructor and is omitted. -/
@[ext]
structure WasteAuditRec where
  auditId : Int
  facilityInfrastructure : Option SectionVal := none
  wasteStreamsAssessment : Option SectionVal := none
  specialWasteManagement : Option SectionVal := none
  organicWasteComposting : Option SectionVal := none
  wastePreventionMeasures : Option SectionVal := none
  behavioralTraining : Option SectionVal := none
  completedSections : Option (Option Int) := none
  isQuickMode : Option Bool := none
  syncStatus : Option Resp := none
  lastSaved : Option Resp := none
  deriving DecidableEq, Repr

/-- The six structured section keys, in the order the source lists them
(database.ts lines 109-116 and 189-190). -/
def sectionKeys : List String :=
  ["facilityInfrastructure", "wasteStreamsAssessment", "specialWasteManagement",
   "organicWasteComposting", "wastePreventionMeasures", "behavioralTraining"]

/-- The four scalar metadata keys the reconstructor knows. -/
def metadataKeys : List String :=
  ["completedSections", "isQuickMode", "syncStatus", "lastSaved"]

/-- Every item key the reconstructor dispatches on. -/
def knownKeys : List String := sectionKeys ++ metadataKeys

/-- Body of the `records.forEach` loop of `getWasteAudit` (database.ts
lines 186-205).  The source first tests membership of `item_key` in the
six-name array and assigns `JSON.parse(response)` to the record property
named by the key; expanding that membership test into one branch per
section name — each assigning its own field — is the same dispatch.  A key
outside the known set falls through every branch and leaves the record
unchanged. -/
def reconStep (acc : WasteAuditRec) (row : Row) : WasteAuditRec :=
  if row.item_key = "facilityInfrastructure" then
    match jsonParse row.response with
    | some v => { acc with facilityInfrastructure := some v }
    | none => acc
  else if row.item_key = "wasteStreamsAssessment" then
    match jsonParse row.response with
    | some v => { acc with wasteStreamsAssessment := some v }
    | none => acc
  else if row.item_key = "specialWasteManagement" then
    match jsonParse row.response with
    | some v => { acc with specialWasteManagement := some v }
    | none => acc
  else if row.item_key = "organicWasteComposting" then
    match jsonParse row.response with
    | some v => { acc with organicWasteComposting := some v }
    | none => acc
  else if row.item_key = "wastePreventionMeasures" then
    match jsonParse row.response with
    | some v => { acc with wastePreventionMeasures := some v }
    | none => acc
  else if row.item_key = "behavioralTraining" then
    match jsonParse row.response with
    | some v => { acc with behavioralTraining := some v }
    | none => acc
  else if row.item_key = "completedSections" then
    { acc with completedSections := some (jsParseIntResp row.response) }
  else if row.item_key = "isQuickMode" then
    { acc with isQuickMode := some (respIsStrTrue row.response) }
  else if row.item_key = "syncStatus" then
    { acc with syncStatus := some row.response }
  else if row.item_key = "lastSaved" then
    { acc with lastSaved := some row.response }
  else acc

/-- The `SELECT item_key, response FROM waste_data WHERE audit_id = ?`
query: the rows of the audit, in rowid order. -/
def wasteRecords (auditId : Int) (tbl : Table) : Table :=
  tbl.filter (fun r => r.audit_id == auditId)

/-- The reconstruction loop of `getWasteAudit`, starting from the object
`{ auditId }`. -/
def reconstructFrom (auditId : Int) (tbl : Table) : WasteAuditRec :=
  (wasteRecords auditId tbl).foldl reconStep { auditId := auditId }

/-- Function `getWasteAudit` (database.ts lines 171-213): `null` when the
audit has no rows, otherwise the reconstructed record.  No step of the
body can throw (`parseInt` never throws and the `JSON.parse` failure is
caught per record), so the outer catch-and-return-null path is dead. -/
def getWasteAudit (auditId : Int) (tbl : Table) : Option WasteAuditRec :=
  if (wasteRecords auditId tbl).isEmpty then none
  else some (reconstructFrom auditId tbl)

/- ### Writes (`saveWasteAudit`, `updateWasteAudit`) -/

/-- The caller-supplied `Partial<WasteAuditData>` (`src/types/waste.ts`
lines 231-258): every property optional.  `completedSections` is an
`Int` — the source annotates it `// 0-6` and the specification fixes it as
an integer in `[0,6]` supplied by the caller; `lastSaved` is an ISO date
string per its annotation. -/
structure WasteAuditDraft where
  id : Option Int := none
  auditId : Option Int := none
  facilityInfrastructure : Option FacilityWasteInfrastructure := none
  wasteStreamsAssessment : Option WasteStreamsAssessment := none
  specialWasteManagement : Option SpecialWasteManagement := none
  organicWasteComposting : Option OrganicWasteComposting := none
  wastePreventionMeasures : Option WastePreventionMeasures := none
  behavioralTraining : Option BehavioralTraining := none
  completedSections : Option Int := none
  isQuickMode : Option Bool := none
  lastSaved : Option String := none
  syncStatus : Option SyncStatus := none
  deriving DecidableEq, Repr

/-- Zero or one row, for a conditional insert (`if (...) insertStmt.run(...)`). -/
def optRow (auditId : Int) (key : String) (note : String) : Option Resp → List Row
  | none => []
  | some r => [⟨auditId, key, r, note⟩]

/-- The rows `saveWasteAudit` inserts, in statement order (database.ts
lines 108-143): one JSON row per present section, iterating the fixed
six-name list; then `completedSections` (decimal text) if defined,
`isQuickMode` (boolean text) if defined, `syncStatus` (verbatim) if
present, and always a fresh `lastSaved` ISO timestamp.  The caller's `id`,
`auditId` and `lastSaved` properties are never written by `save`. -/
def saveRows (auditId : Int) (d : WasteAuditDraft) (now : String) : List Row :=
  optRow auditId "facilityInfrastructure" "Waste audit section: facilityInfrastructure"
    (d.facilityInfrastructure.map (fun v => .sec (.facility v))) ++
  optRow auditId "wasteStreamsAssessment" "Waste audit section: wasteStreamsAssessment"
    (d.wasteStreamsAssessment.map (fun v => .sec (.streams v))) ++
  optRow auditId "specialWasteManagement" "Waste audit section: specialWasteManagement"
    (d.specialWasteManagement.map (fun v => .sec (.special v))) ++
  optRow auditId "organicWasteComposting" "Waste audit section: organicWasteComposting"
    (d.organicWasteComposting.map (fun v => .sec (.organic v))) ++
  optRow auditId "wastePreventionMeasures" "Waste audit section: wastePreventionMeasures"
    (d.wastePreventionMeasures.map (fun v => .sec (.prevention v))) ++
  optRow auditId "behavioralTraining" "Waste audit section: behavioralTraining"
    (d.behavioralTraining.map (fun v => .sec (.behavioral v))) ++
  optRow auditId "completedSections" "Number of completed sections"
    (d.completedSections.map (fun n => .num n)) ++
  optRow auditId "isQuickMode" "Quick mode flag"
    (d.isQuickMode.map (fun b => .bool b)) ++
  optRow auditId "syncStatus" "Synchronization status"
    (d.syncStatus.map (fun st => .raw st.toStr)) ++
  optRow auditId "lastSaved" "Last saved timestamp" (some (.raw now))

/-- The result object of `saveWasteAudit`. -/
structure SaveWasteAuditResponse where
  success : Bool
  wasteAuditId : Option Int := none
  validationErrors : Option (List String) := none
  deriving DecidableEq, Repr

/-- Function `saveWasteAudit` (database.ts lines 95-165): inside one
transaction, delete every existing row of the audit, then insert the
present sections and metadata and a fresh timestamp.  On any insert
failure the transaction rolls back — the table reverts to its
pre-transaction state — and the function returns a failure result carrying
one message built from the underlying error.  `now` is the
`new Date().toISOString()` value. -/
def saveWasteAudit (audits : List Int) (auditId : Int) (data : WasteAuditDraft)
    (now : String) (tbl : Table) : SaveWasteAuditResponse × Table :=
  match insertRows audits (saveRows auditId data now) (deleteWasteRows auditId tbl) with
  | .ok t2 => ({ success := true, wasteAuditId := some auditId }, t2)
  | .error e =>
    ({ success := false, validationErrors := some ["Failed to save waste audit: " ++ e] }, tbl)

/-- The rows `updateWasteAudit` writes before its final timestamp row: one
`INSERT OR REPLACE` per defined property of the update object — objects
JSON-encoded, scalars rendered by `toString()`.  `Object.keys` iterates in
property-insertion order, modelled here as the declaration order of
`WasteAuditData`; the order is immaterial because the keys are distinct.
Since `waste_data` declares no uniqueness constraint other than the
autoincrement primary key — which these statements never supply — the
`OR REPLACE` clause never fires and each statement appends a plain new
row.  `Object.keys` never yields an `undefined` property, and the final
block is the unconditional fresh `lastSaved` write (database.ts
line 239). -/
def updRows (auditId : Int) (u : WasteAuditDraft) (now : String) : List Row :=
  optRow auditId "id" "Updated: id" (u.id.map (fun n => .num n)) ++
  optRow auditId "auditId" "Updated: auditId" (u.auditId.map (fun n => .num n)) ++
  optRow auditId "facilityInfrastructure" "Updated: facilityInfrastructure"
    (u.facilityInfrastructure.map (fun v => .sec (.facility v))) ++
  optRow auditId "wasteStreamsAssessment" "Updated: wasteStreamsAssessment"
    (u.wasteStreamsAssessment.map (fun v => .sec (.streams v))) ++
  optRow auditId "specialWasteManagement" "Updated: specialWasteManagement"
    (u.specialWasteManagement.map (fun v => .sec (.special v))) ++
  optRow auditId "organicWasteComposting" "Updated: organicWasteComposting"
    (u.organicWasteComposting.map (fun v => .sec (.organic v))) ++
  optRow auditId "wastePreventionMeasures" "Updated: wastePreventionMeasures"
    (u.wastePreventionMeasures.map (fun v => .sec (.prevention v))) ++
  optRow auditId "behavioralTraining" "Updated: behavioralTraining"
    (u.behavioralTraining.map (fun v => .sec (.behavioral v))) ++
  optRow auditId "completedSections" "Updated: completedSections"
    (u.completedSections.map (fun n => .num n)) ++
  optRow auditId "isQuickMode" "Updated: isQuickMode"
    (u.isQuickMode.map (fun b => .bool b)) ++
  optRow auditId "lastSaved" "Updated: lastSaved"
    (u.lastSaved.map (fun s => .raw s)) ++
  optRow auditId "syncStatus" "Updated: syncStatus"
    (u.syncStatus.map (fun st => .raw st.toStr)) ++
  optRow auditId "lastSaved" "Last updated timestamp" (some (.raw now))

/-- Function `updateWasteAudit` (database.ts lines 219-249): returns
`true` after the transaction commits; on any failure the transaction rolls
back, the error is logged and the function returns `false`. -/
def updateWasteAudit (audits : List Int) (auditId : Int) (updates : WasteAuditDraft)
    (now : String) (tbl : Table) : Bool × Table :=
  match insertRows audits (updRows auditId updates now) tbl with
  | .ok t2 => (true, t2)
  | .error _ => (false, tbl)

/- ### Scoring engine (`src/app/api/waste-audit/calculate/route.ts`)
All functions are pure over a `Partial<WasteAuditData>`; arithmetic is on
`ℚ`. -/

/-- JavaScript `Math.round`: half-increments round toward positive
infinity. -/
def jsRound (q : ℚ) : Int := ⌊q + 1 / 2⌋

/-- The two-decimal rounding pattern `Math.round(x * 100) / 100`. -/
def round2 (q : ℚ) : ℚ := (jsRound (q * 100) : ℚ) / 100

/-- Interface `WasteAuditCalculations`.  Every field is assigned by
`calculateWasteMetrics`, including the optional `carbonFootprintEstimate`. -/
structure WasteAuditCalculations where
  estimatedAnnualWasteCost : ℚ
  potentialSavingsFromContaminationReduction : ℚ
  recyclingRateEstimate : ℚ
  weeklyWastePerUser : ℚ
  carbonFootprintEstimate : ℚ
  deriving DecidableEq, Repr

/-- The four accumulators of the `forEach` loop of
`calculateWasteMetrics` (route.ts lines 72-94). -/
@[ext]
structure MetricsAcc where
  totalAnnualCost : ℚ
  totalWeeklyVolume : ℚ
  recyclableVolume : ℚ
  contaminationIssues : Nat
  deriving DecidableEq, Repr

/-- One iteration of that loop, in statement order.  `annualCostEuros` is
added only when truthy (absent and zero both contribute nothing);
`estimatedWeeklyVolumeLitres || 0` is the field itself, rationals having
no `undefined`/`NaN`. -/
def metricsStep (acc : MetricsAcc) (stream : WasteStreamAssessment) : MetricsAcc :=
  let a1 := match stream.annualCostEuros with
    | some c => if c = 0 then acc else { acc with totalAnnualCost := acc.totalAnnualCost + c }
    | none => acc
  let a2 := { a1 with totalWeeklyVolume := a1.totalWeeklyVolume + stream.estimatedWeeklyVolumeLitres }
  let a3 := if stream.wasteStream = .dry_recyclables ∨ stream.wasteStream = .organic then
      { a2 with recyclableVolume := a2.recyclableVolume + stream.estimatedWeeklyVolumeLitres }
    else a2
  if stream.contaminationLevel > 3 then
    { a3 with contaminationIssues := a3.contaminationIssues + 1 }
  else a3

/-- The assessments list the scoring functions iterate
(`data.wasteStreamsAssessment?.assessments`, `[]` when the section is
absent; an empty array is itself truthy, so presence of the section is the
only guard). -/
def streamsOf (data : WasteAuditDraft) : List WasteStreamAssessment :=
  match data.wasteStreamsAssessment with
  | some w => w.assessments
  | none => []

/-- The bin inventory the scoring functions iterate
(`data.facilityInfrastructure?.binInventory || []`). -/
def binInventoryOf (data : WasteAuditDraft) : List BinInventoryItem :=
  match data.facilityInfrastructure with
  | some f => f.binInventory
  | none => []

/-- Function `calculateWasteMetrics` (route.ts lines 71-115). -/
def calculateWasteMetrics (data : WasteAuditDraft) (userCount : ℚ) : WasteAuditCalculations :=
  let acc := (streamsOf data).foldl metricsStep ⟨0, 0, 0, 0⟩
  let recyclingRate : ℚ :=
    if acc.totalWeeklyVolume > 0 then acc.recyclableVolume / acc.totalWeeklyVolume * 100 else 0
  let potentialSavings : ℚ :=
    if acc.contaminationIssues > 0 then acc.totalAnnualCost * 0.15 else 0
  let weeklyWastePerUser : ℚ :=
    if userCount > 0 then acc.totalWeeklyVolume * 0.5 / userCount else 0
  let carbonFootprint : ℚ := acc.totalWeeklyVolume * 0.5 * 52 * 0.5
  { estimatedAnnualWasteCost := acc.totalAnnualCost,
    potentialSavingsFromContaminationReduction := potentialSavings,
    recyclingRateEstimate := round2 recyclingRate,
    weeklyWastePerUser := round2 weeklyWastePerUser,
    carbonFootprintEstimate := (jsRound carbonFootprint : ℚ) }

/-- The TS union `'low' | 'medium' | 'high'`. -/
inductive ImpactLevel
  | low | medium | high
  deriving DecidableEq, Repr

/-- The TS union of quick-win categories. -/
inductive QuickWinCategory
  | infrastructure | contamination | prevention | training
  deriving DecidableEq, Repr

/-- Interface `QuickWin`.  `priority` is the value of the counter at push
time. -/
structure QuickWin where
  id : String
  title : String
  description : String
  estimatedCostEuros : ℚ
  estimatedSavingsEuros : ℚ
  impactLevel : ImpactLevel
  priority : Nat
  category : QuickWinCategory
  deriving DecidableEq, Repr

/-- JavaScript `quickWins.sort((a, b) => a.priority - b.priority)`:
a stable ascending sort on `priority`. -/
def sortByPriority (l : List QuickWin) : List QuickWin :=
  List.insertionSort (fun a b => a.priority ≤ b.priority) l

/-- The check `binInventory.some(bin => bin.binType === 'dry_recyclables')`
(route.ts line 126). -/
def hasRecyclingBins (data : WasteAuditDraft) : Bool :=
  (binInventoryOf data).any (fun bin => bin.binType == BinType.dry_recyclables)

/-- Length of `binInventory.filter(bin => bin.signagePresent &&
bin.signageQuality < 3)` (route.ts line 142). -/
def poorSignageCount (data : WasteAuditDraft) : Nat :=
  ((binInventoryOf data).filter
    (fun bin => bin.signagePresent && decide (bin.signageQuality < 3))).length

/-- Length of the streams with contamination level above three
(route.ts lines 157-159). -/
def contaminatedStreamCount (data : WasteAuditDraft) : Nat :=
  ((streamsOf data).filter (fun stream => decide (stream.contaminationLevel > 3))).length

/-- The read `data.behavioralTraining?.wasteChampionAppointed`
(`false` both when the section is absent and when the flag is unset). -/
def championAppointed (data : WasteAuditDraft) : Bool :=
  match data.behavioralTraining with
  | some b => b.wasteChampionAppointed
  | none => false

/-- The check `data.organicWasteComposting?.kitchenPresent &&
compostingSystem === 'none'` (route.ts lines 189-190). -/
def compostingOpportunity (data : WasteAuditDraft) : Bool :=
  match data.organicWasteComposting with
  | some o => o.kitchenPresent && o.compostingSystem == CompostingSystem.none
  | none => false

/-- The `add-recycling-bins` recommendation pushed at priority `p`. -/
def addRecyclingBinsWin (p : Nat) : QuickWin :=
  ⟨"add-recycling-bins", "Add Recycling Bins",
    "No recycling bins detected. Adding clearly labelled recycling bins can reduce general waste costs.",
    150, 500, .high, p, .infrastructure⟩

/-- The `improve-signage` recommendation: its description interpolates the
number of offending bins. -/
def improveSignageWin (count p : Nat) : QuickWin :=
  ⟨"improve-signage", "Improve Bin Signage",
    toString count ++ " bins have poor signage quality. Clear signage reduces contamination.",
    50, 200, .medium, p, .infrastructure⟩

/-- The `contamination-training` recommendation. -/
def contaminationTrainingWin (p : Nat) : QuickWin :=
  ⟨"contamination-training", "Staff Waste Training",
    "High contamination levels detected. Staff training can reduce collection costs.",
    100, 400, .high, p, .training⟩

/-- The `appoint-champion` recommendation. -/
def appointChampionWin (p : Nat) : QuickWin :=
  ⟨"appoint-champion", "Appoint Waste Champion",
    "Designate a staff member as waste champion to drive improvements.",
    0, 300, .medium, p, .training⟩

/-- The `start-composting` recommendation. -/
def startCompostingWin (p : Nat) : QuickWin :=
  ⟨"start-composting", "Start Composting System",
    "Kitchen present but no composting. A simple system could reduce organic waste costs.",
    200, 600, .high, p, .prevention⟩

/-- Function `generateQuickWins` (route.ts lines 120-205): five
condition checks in declaration order, each pushing one fixed
recommendation carrying the current value of the `priority` counter; the
result is sorted by priority and truncated to the first five.  The state
threaded through the `let` chain is the `(quickWins, priority)` pair. -/
def generateQuickWins (data : WasteAuditDraft) : List QuickWin :=
  let st0 : List QuickWin × Nat := ([], 1)
  let st1 := if !hasRecyclingBins data then
      (st0.1 ++ [addRecyclingBinsWin st0.2], st0.2 + 1)
    else st0
  let st2 := if poorSignageCount data > 0 then
      (st1.1 ++ [improveSignageWin (poorSignageCount data) st1.2], st1.2 + 1)
    else st1
  let st3 := if contaminatedStreamCount data > 0 then
      (st2.1 ++ [contaminationTrainingWin st2.2], st2.2 + 1)
    else st2
  let st4 := if !championAppointed data then
      (st3.1 ++ [appointChampionWin st3.2], st3.2 + 1)
    else st3
  let st5 := if compostingOpportunity data then
      (st4.1 ++ [startCompostingWin st4.2], st4.2 + 1)
    else st4
  (sortByPriority st5.1).take 5

/-- Points per measure in `calculatePreventionScore` (route.ts lines
272-277); `partially` models the TS enum value `'partial'`. -/
def implPoints : ImplementationLevel → ℚ
  | .full => 4
  | .partially => 2
  | .planned => 1
  | .not_implemented => 0

/-- Function `calculatePreventionScore` (route.ts lines 263-280): sum of
points over the fixed eight measures, scaled by `8 × 4` to a percentage;
`0` when the section is absent. -/
def calculatePreventionScore : Option WastePreventionMeasures → ℚ
  | none => 0
  | some p =>
    let score := implPoints p.procurementPolicy + implPoints p.reusableCupsBottles +
      implPoints p.waterFountainsRefillStations + implPoints p.paperlessCommunication +
      implPoints p.donationSystem + implPoints p.repairCafe + implPoints p.bulkBuying +
      implPoints p.eliminateSingleUse
    score / (8 * 4) * 100

/-- The `(s.contaminationLevel || 5)` read: a zero (falsy) level counts as
worst-case `5`. -/
def contaminationOr5 (s : WasteStreamAssessment) : ℚ :=
  if s.contaminationLevel = 0 then 5 else s.contaminationLevel

/-- The infrastructure block of `calculateOverallScore` (route.ts lines
289-297): `Math.min(binCount * 2, 10)` plus a flat 10 when any
dry-recyclables bin exists (the code compares the recycling-bin count, a
number, against zero). -/
def infrastructureScore (data : WasteAuditDraft) : ℚ :=
  min (((binInventoryOf data).length : ℚ) * 2) 10 +
    (if ((((binInventoryOf data).filter
          (fun bin => bin.binType == BinType.dry_recyclables)).length : ℚ) > 0) then 10 else 0)

/-- The training block (route.ts lines 304-310): only contributes — to
score and to denominator alike — when the section is present. -/
def trainingScore : Option BehavioralTraining → ℚ
  | some b =>
    (if b.wasteChampionAppointed then 10 else 0) +
      (if b.userEducationMaterialsDisplayed then 10 else 0) +
      (if b.wasteMonitoringRecordsKept ≠ MonitoringFrequency.never then 5 else 0)
  | none => 0

/-- Contribution of the training block to `maxScore`. -/
def trainingMax : Option BehavioralTraining → ℚ
  | some _ => 25
  | none => 0

/-- The `streams.reduce(...) / streams.length` average of (fallback-5)
contamination levels (route.ts line 315). -/
def avgContamination (streams : List WasteStreamAssessment) : ℚ :=
  (streams.foldl (fun sum s => sum + contaminationOr5 s) 0) / (streams.length : ℚ)

/-- The contamination block (route.ts lines 313-318): only counted when
at least one stream exists. -/
def contaminationScore (streams : List WasteStreamAssessment) : ℚ :=
  if streams.length > 0 then (5 - avgContamination streams) / 4 * 25 else 0

/-- Contribution of the contamination block to `maxScore`. -/
def contaminationMax (streams : List WasteStreamAssessment) : ℚ :=
  if streams.length > 0 then 25 else 0

/-- The accumulated `score` of `calculateOverallScore`, block by block in
statement order. -/
def overallScoreNum (data : WasteAuditDraft) : ℚ :=
  infrastructureScore data + calculatePreventionScore data.wastePreventionMeasures / 100 * 30 +
    trainingScore data.behavioralTraining + contaminationScore (streamsOf data)

/-- The accumulated `maxScore`: a flat `20 + 30` for the always-counted
infrastructure and prevention blocks plus the conditional blocks. -/
def overallScoreDen (data : WasteAuditDraft) : ℚ :=
  20 + 30 + trainingMax data.behavioralTraining + contaminationMax (streamsOf data)

/-- Function `calculateOverallScore` (route.ts lines 285-321):
infrastructure (0-20, always in the denominator), prevention (0-30,
always in the denominator), training (0-25, only when the section is
present), contamination (0-25, only when at least one stream exists);
result `Math.round(score / maxScore * 100)`, `0` when `maxScore` is
zero. -/
def calculateOverallScore (data : WasteAuditDraft) : Int :=
  if overallScoreDen data > 0 then
    jsRound (overallScoreNum data / overallScoreDen data * 100)
  else 0
/- ### Elementary facts about the write paths -/

lemma optRow_audit_id {aid : Int} {k note : String} {o : Option Resp} {r : Row}
    (h : r ∈ optRow aid k note o) : r.audit_id = aid := by
  cases o with
  | none => simp [optRow] at h
  | some x =>
    simp only [optRow, List.mem_singleton] at h
    subst h; rfl

lemma saveRows_audit_id {aid : Int} {d : WasteAuditDraft} {now : String} {r : Row}
    (h : r ∈ saveRows aid d now) : r.audit_id = aid := by
  simp only [saveRows, List.mem_append] at h
  rcases h with ((((((((h | h) | h) | h) | h) | h) | h) | h) | h) | h <;> exact optRow_audit_id h

lemma updRows_audit_id {aid : Int} {u : WasteAuditDraft} {now : String} {r : Row}
    (h : r ∈ updRows aid u now) : r.audit_id = aid := by
  simp only [updRows, List.mem_append] at h
  rcases h with (((((((((((h | h) | h) | h) | h) | h) | h) | h) | h) | h) | h) | h) | h <;>
    exact optRow_audit_id h

lemma saveRows_lastSaved_mem (aid : Int) (d : WasteAuditDraft) (now : String) :
    (⟨aid, "lastSaved", .raw now, "Last saved timestamp"⟩ : Row) ∈ saveRows aid d now := by
  simp only [saveRows, optRow]
  exact List.mem_append_right _ (List.mem_singleton_self _)

lemma saveRows_ne_nil (aid : Int) (d : WasteAuditDraft) (now : String) :
    saveRows aid d now ≠ [] :=
  List.ne_nil_of_mem (saveRows_lastSaved_mem aid d now)

lemma updRows_lastSaved_mem (aid : Int) (u : WasteAuditDraft) (now : String) :
    (⟨aid, "lastSaved", .raw now, "Last updated timestamp"⟩ : Row) ∈ updRows aid u now := by
  simp only [updRows, optRow]
  exact List.mem_append_right _ (List.mem_singleton_self _)

lemma updRows_ne_nil (aid : Int) (u : WasteAuditDraft) (now : String) :
    updRows aid u now ≠ [] :=
  List.ne_nil_of_mem (updRows_lastSaved_mem aid u now)

lemma insertRows_ok {audits : List Int} {rows : List Row} (tbl : Table)
    (h : ∀ r ∈ rows, r.audit_id ∈ audits) :
    insertRows audits rows tbl = .ok (tbl ++ rows) := by
  induction rows generalizing tbl with
  | nil => simp [insertRows]
  | cons row rest ih =>
    simp only [insertRows, insertRow, if_pos (h row (List.mem_cons_self row rest))]
    rw [ih _ (fun r hr => h r (List.mem_cons_of_mem row hr))]
    simp

lemma insertRows_fk_error {audits : List Int} {aid : Int} {rows : List Row} (tbl : Table)
    (hne : rows ≠ []) (hall : ∀ r ∈ rows, r.audit_id = aid) (ha : aid ∉ audits) :
    insertRows audits rows tbl = .error "FOREIGN KEY constraint failed" := by
  cases rows with
  | nil => exact absurd rfl hne
  | cons row rest =>
    have hrow : row.audit_id ∉ audits := by
      rw [hall row (List.mem_cons_self row rest)]; exact ha
    simp only [insertRows, insertRow, if_neg hrow]

/- ### Facts about `wasteRecords` -/

lemma wasteRecords_append (aid : Int) (xs ys : Table) :
    wasteRecords aid (xs ++ ys) = wasteRecords aid xs ++ wasteRecords aid ys := by
  simp only [wasteRecords, List.filter_append]

lemma wasteRecords_delete (aid : Int) (tbl : Table) :
    wasteRecords aid (deleteWasteRows aid tbl) = [] := by
  rw [wasteRecords, deleteWasteRows, List.filter_filter]
  refine List.filter_eq_nil_iff.mpr (fun r _ => ?_)
  simp

lemma wasteRecords_of_all {aid : Int} {rows : Table} (h : ∀ r ∈ rows, r.audit_id = aid) :
    wasteRecords aid rows = rows :=
  List.filter_eq_self.mpr (fun r hr => by rw [h r hr]; exact beq_self_eq_true aid)

/- ### Normal forms for the reconstruction fold over one write block -/

lemma foldl_optRow_facility (aid : Int) (note : String) (o : Option Resp) (acc : WasteAuditRec) :
    (optRow aid "facilityInfrastructure" note o).foldl reconStep acc =
      { acc with facilityInfrastructure :=
          match o with
          | some r =>
            match jsonParse r with
            | some v => some v
            | none => acc.facilityInfrastructure
          | none => acc.facilityInfrastructure } := by
  cases o with
  | none => rfl
  | some r => cases r <;> rfl

lemma foldl_optRow_id (aid : Int) (note : String) (o : Option Resp) (acc : WasteAuditRec) :
    (optRow aid "id" note o).foldl reconStep acc = acc := by
  cases o <;> rfl

lemma foldl_optRow_completedSections (aid : Int) (note : String) (o : Option Resp)
    (acc : WasteAuditRec) :
    (optRow aid "completedSections" note o).foldl reconStep acc =
      { acc with completedSections :=
          match o with
          | some r => some (jsParseIntResp r)
          | none => acc.completedSections } := by
  cases o <;> rfl

lemma foldl_optRow_streams (aid : Int) (note : String) (o : Option Resp) (acc : WasteAuditRec) :
    (optRow aid "wasteStreamsAssessment" note o).foldl reconStep acc =
      { acc with wasteStreamsAssessment :=
          match o with
          | some r =>
            match jsonParse r with
            | some v => some v
            | none => acc.wasteStreamsAssessment
          | none => acc.wasteStreamsAssessment } := by
  cases o with
  | none => rfl
  | some r => cases r <;> rfl

lemma foldl_optRow_special (aid : Int) (note : String) (o : Option Resp) (acc : WasteAuditRec) :
    (optRow aid "specialWasteManagement" note o).foldl reconStep acc =
      { acc with specialWasteManagement :=
          match o with
          | some r =>
            match jsonParse r with
            | some v => some v
            | none => acc.specialWasteManagement
          | none => acc.specialWasteManagement } := by
  cases o with
  | none => rfl
  | some r => cases r <;> rfl

lemma foldl_optRow_organic (aid : Int) (note : String) (o : Option Resp) (acc : WasteAuditRec) :
    (optRow aid "organicWasteComposting" note o).foldl reconStep acc =
      { acc with organicWasteComposting :=
          match o with
          | some r =>
            match jsonParse r with
            | some v => some v
            | none => acc.organicWasteComposting
          | none => acc.organicWasteComposting } := by
  cases o with
  | none => rfl
  | some r => cases r <;> rfl

lemma foldl_optRow_prevention (aid : Int) (note : String) (o : Option Resp) (acc : WasteAuditRec) :
    (optRow aid "wastePreventionMeasures" note o).foldl reconStep acc =
      { acc with wastePreventionMeasures :=
          match o with
          | some r =>
            match jsonParse r with
            | some v => some v
            | none => acc.wastePreventionMeasures
          | none => acc.wastePreventionMeasures } := by
  cases o with
  | none => rfl
  | some r => cases r <;> rfl

lemma foldl_optRow_behavioral (aid : Int) (note : String) (o : Option Resp) (acc : WasteAuditRec) :
    (optRow aid "behavioralTraining" note o).foldl reconStep acc =
      { acc with behavioralTraining :=
          match o with
          | some r =>
            match jsonParse r with
            | some v => some v
            | none => acc.behavioralTraining
          | none => acc.behavioralTraining } := by
  cases o with
  | none => rfl
  | some r => cases r <;> rfl

lemma foldl_optRow_auditId (aid : Int) (note : String) (o : Option Resp) (acc : WasteAuditRec) :
    (optRow aid "auditId" note o).foldl reconStep acc = acc := by
  cases o <;> rfl

lemma foldl_optRow_isQuickMode (aid : Int) (note : String) (o : Option Resp)
    (acc : WasteAuditRec) :
    (optRow aid "isQuickMode" note o).foldl reconStep acc =
      { acc with isQuickMode :=
          match o with
          | some r => some (respIsStrTrue r)
          | none => acc.isQuickMode } := by
  cases o <;> rfl

lemma foldl_optRow_syncStatus (aid : Int) (note : String) (o : Option Resp)
    (acc : WasteAuditRec) :
    (optRow aid "syncStatus" note o).foldl reconStep acc =
      { acc with syncStatus :=
          match o with
          | some r => some r
          | none => acc.syncStatus } := by
  cases o <;> rfl

lemma foldl_optRow_lastSaved (aid : Int) (note : String) (o : Option Resp)
    (acc : WasteAuditRec) :
    (optRow aid "lastSaved" note o).foldl reconStep acc =
      { acc with lastSaved :=
          match o with
          | some r => some r
          | none => acc.lastSaved } := by
  cases o <;> rfl

/- ### The record produced by a save-then-get round trip -/

/-- The record that `getWasteAudit` returns right after a successful
`saveWasteAudit auditId d`: exactly the sections of `d` (as parsed
payloads), the metadata of `d` (decoded from their text encodings), the
`auditId` seed, and the fresh timestamp — nothing else. -/
def savedRecord (auditId : Int) (d : WasteAuditDraft) (now : String) : WasteAuditRec :=
  { auditId := auditId,
    facilityInfrastructure := d.facilityInfrastructure.map SectionVal.facility,
    wasteStreamsAssessment := d.wasteStreamsAssessment.map SectionVal.streams,
    specialWasteManagement := d.specialWasteManagement.map SectionVal.special,
    organicWasteComposting := d.organicWasteComposting.map SectionVal.organic,
    wastePreventionMeasures := d.wastePreventionMeasures.map SectionVal.prevention,
    behavioralTraining := d.behavioralTraining.map SectionVal.behavioral,
    completedSections := d.completedSections.map (fun n => some n),
    isQuickMode := d.isQuickMode,
    syncStatus := d.syncStatus.map (fun st => Resp.raw st.toStr),
    lastSaved := some (Resp.raw now) }

lemma reconstruct_saveRows (aid : Int) (d : WasteAuditDraft) (now : String) :
    (saveRows aid d now).foldl reconStep { auditId := aid } = savedRecord aid d now := by
  obtain ⟨did, daid, f, w, sp, og, pv, bt, cs, qm, ls, ss⟩ := d
  simp only [saveRows, List.foldl_append, foldl_optRow_facility, foldl_optRow_streams,
    foldl_optRow_special, foldl_optRow_organic, foldl_optRow_prevention, foldl_optRow_behavioral,
    foldl_optRow_completedSections, foldl_optRow_isQuickMode, foldl_optRow_syncStatus,
    foldl_optRow_lastSaved]
  refine WasteAuditRec.ext ?_ ?_ ?_ ?_ ?_ ?_ ?_ ?_ ?_ ?_ ?_
  · rfl
  · cases f <;> rfl
  · cases w <;> rfl
  · cases sp <;> rfl
  · cases og <;> rfl
  · cases pv <;> rfl
  · cases bt <;> rfl
  · cases cs <;> rfl
  · cases qm <;> rfl
  · cases ss <;> rfl
  · rfl

lemma isEmpty_append_right (xs ys : Table) (h : ys ≠ []) : (xs ++ ys).isEmpty = false := by
  cases ys with
  | nil => exact absurd rfl h
  | cons a t => cases xs <;> rfl

lemma getWasteAudit_eq_some (aid : Int) (tbl : Table) (h : wasteRecords aid tbl ≠ []) :
    getWasteAudit aid tbl = some (reconstructFrom aid tbl) := by
  rw [getWasteAudit, if_neg]
  simpa [List.isEmpty_iff] using h

/-- C2.  Round trip: immediately after a successful
`saveWasteAudit auditId r`, `getWasteAudit auditId` returns exactly the
sections and metadata present in `r` with their saved values, plus the
`auditId` and the fresh `lastSaved` timestamp, and nothing else —
whatever the prior contents of the table. -/
theorem saveWasteAudit_getWasteAudit_roundtrip (audits : List Int) (auditId : Int)
    (d : WasteAuditDraft) (now : String) (tbl : Table)
    (h : (saveWasteAudit audits auditId d now tbl).1.success = true) :
    getWasteAudit auditId (saveWasteAudit audits auditId d now tbl).2 =
      some (savedRecord auditId d now) := by
  by_cases ha : auditId ∈ audits
  · have hok : insertRows audits (saveRows auditId d now) (deleteWasteRows auditId tbl)
        = .ok (deleteWasteRows auditId tbl ++ saveRows auditId d now) :=
      insertRows_ok _ (fun r hr => (saveRows_audit_id hr) ▸ ha)
    have h2 : (saveWasteAudit audits auditId d now tbl).2
        = deleteWasteRows auditId tbl ++ saveRows auditId d now := by
      simp [saveWasteAudit, hok]
    rw [h2]
    have hwr : wasteRecords auditId (deleteWasteRows auditId tbl ++ saveRows auditId d now)
        = saveRows auditId d now := by
      rw [wasteRecords_append, wasteRecords_delete,
        wasteRecords_of_all (fun r hr => saveRows_audit_id hr), List.nil_append]
    rw [getWasteAudit_eq_some _ _ (by rw [hwr]; exact saveRows_ne_nil auditId d now),
      reconstructFrom, hwr, reconstruct_saveRows]
  · exfalso
    have herr := insertRows_fk_error (deleteWasteRows auditId tbl)
      (saveRows_ne_nil auditId d now) (fun r hr => saveRows_audit_id hr) ha
    simp [saveWasteAudit, herr] at h

/-- Concrete draft used to instantiate the round-trip theorem. -/
def roundtripDraft : WasteAuditDraft :=
  { facilityInfrastructure := some
      { binInventory := [], totalBins := 0, outdoorBinsPresent := false },
    completedSections := some 3,
    isQuickMode := some false,
    syncStatus := some .pending }

/-- Witness for C2 at a concrete input. -/
theorem saveWasteAudit_getWasteAudit_roundtrip_witness :
    getWasteAudit 1 (saveWasteAudit [1] 1 roundtripDraft "2024-03-01T10:00:00.000Z" []).2 =
      some (savedRecord 1 roundtripDraft "2024-03-01T10:00:00.000Z") :=
  saveWasteAudit_getWasteAudit_roundtrip [1] 1 roundtripDraft "2024-03-01T10:00:00.000Z" []
    (by rfl)

lemma updFold_idem (aid : Int) (u : WasteAuditDraft) (t1 t2 : String) (acc : WasteAuditRec) :
    (updRows aid u t2).foldl reconStep ((updRows aid u t1).foldl reconStep acc) =
      (updRows aid u t2).foldl reconStep acc := by
  obtain ⟨uid, uaid, f, w, sp, og, pv, bt, cs, qm, ls, ss⟩ := u
  simp only [updRows, List.foldl_append, foldl_optRow_id, foldl_optRow_auditId,
    foldl_optRow_facility, foldl_optRow_streams, foldl_optRow_special, foldl_optRow_organic,
    foldl_optRow_prevention, foldl_optRow_behavioral, foldl_optRow_completedSections,
    foldl_optRow_isQuickMode, foldl_optRow_lastSaved, foldl_optRow_syncStatus]
  refine WasteAuditRec.ext ?_ ?_ ?_ ?_ ?_ ?_ ?_ ?_ ?_ ?_ ?_
  · rfl
  · cases f <;> rfl
  · cases w <;> rfl
  · cases sp <;> rfl
  · cases og <;> rfl
  · cases pv <;> rfl
  · cases bt <;> rfl
  · cases cs <;> rfl
  · cases qm <;> rfl
  · cases ss <;> rfl
  · rfl

/-- C4.  Idempotence of the partial update: running the same update twice
(with timestamps `t1` then `t2`) reconstructs to exactly what a single run
(with timestamp `t2`) reconstructs to — the two final records agree on
everything, the `lastSaved` value included, so the double run differs from
the single one by nothing but the timestamp written in between. -/
theorem updateWasteAudit_idempotent (audits : List Int) (auditId : Int) (u : WasteAuditDraft)
    (t1 t2 : String) (tbl : Table) :
    getWasteAudit auditId (updateWasteAudit audits auditId u t2
        (updateWasteAudit audits auditId u t1 tbl).2).2 =
      getWasteAudit auditId (updateWasteAudit audits auditId u t2 tbl).2 := by
  by_cases ha : auditId ∈ audits
  · have mk1 : ∀ t (s : Table), updateWasteAudit audits auditId u t s
        = (true, s ++ updRows auditId u t) := fun t s => by
      have hok : insertRows audits (updRows auditId u t) s = .ok (s ++ updRows auditId u t) :=
        insertRows_ok s (fun r hr => by rw [updRows_audit_id hr]; exact ha)
      simp [updateWasteAudit, hok]
    rw [mk1 t1 tbl, mk1 t2 (tbl ++ updRows auditId u t1), mk1 t2 tbl]
    have ewr : ∀ t (s : Table), wasteRecords auditId (s ++ updRows auditId u t)
        = wasteRecords auditId s ++ updRows auditId u t := fun t s => by
      rw [wasteRecords_append, wasteRecords_of_all (fun r hr => updRows_audit_id hr)]
    have hne : ∀ t (s : Table), wasteRecords auditId (s ++ updRows auditId u t) ≠ [] :=
      fun t s => by
        rw [ewr]
        exact fun hc => updRows_ne_nil auditId u t (List.append_eq_nil.mp hc).2
    rw [getWasteAudit_eq_some _ _ (hne t2 (tbl ++ updRows auditId u t1)),
      getWasteAudit_eq_some _ _ (hne t2 tbl)]
    rw [reconstructFrom, reconstructFrom, ewr t2 (tbl ++ updRows auditId u t1), ewr t2 tbl,
      ewr t1 tbl, List.foldl_append, List.foldl_append, List.foldl_append]
    exact congrArg some (updFold_idem auditId u t1 t2 _)
  · have mk0 : ∀ t (s : Table), updateWasteAudit audits auditId u t s = (false, s) :=
      fun t s => by
        have herr : insertRows audits (updRows auditId u t) s
            = .error "FOREIGN KEY constraint failed" :=
          insertRows_fk_error s (updRows_ne_nil auditId u t)
            (fun r hr => updRows_audit_id hr) ha
        simp [updateWasteAudit, herr]
    rw [mk0 t1 tbl, mk0 t2 tbl]

lemma reconStep_raw_section {acc : WasteAuditRec} {aid : Int} {k s note : String}
    (hk : k ∈ sectionKeys) : reconStep acc ⟨aid, k, .raw s, note⟩ = acc := by
  fin_cases hk <;> rfl

lemma wasteRecords_middle (pre post : Table) (auditId : Int) (row : Row)
    (hid : row.audit_id = auditId) :
    wasteRecords auditId (pre ++ row :: post)
      = wasteRecords auditId pre ++ row :: wasteRecords auditId post := by
  rw [wasteRecords_append]
  congr 1
  rw [wasteRecords, List.filter_cons_of_pos]
  · rfl
  · rw [hid]; exact beq_self_eq_true auditId

/-- C5.  Fail-open section decoding: a stored section entry whose text is
not valid JSON never aborts `getWasteAudit` and never turns the audit into
not-found — the result is exactly the reconstruction of the remaining
rows, so every other decodable section and metadata value survives. -/
theorem getWasteAudit_skips_malformed_section (pre post : Table) (auditId : Int)
    (k s note : String) (hk : k ∈ sectionKeys) :
    getWasteAudit auditId (pre ++ (⟨auditId, k, .raw s, note⟩ : Row) :: post) =
      some (reconstructFrom auditId (pre ++ post)) := by
  have hw := wasteRecords_middle pre post auditId ⟨auditId, k, .raw s, note⟩ rfl
  rw [getWasteAudit_eq_some _ _ (by
    rw [hw]
    exact fun hc => List.cons_ne_nil _ _ (List.append_eq_nil.mp hc).2)]
  rw [reconstructFrom, hw, List.foldl_append, List.foldl_cons, reconStep_raw_section hk,
    reconstructFrom, wasteRecords_append, List.foldl_append]

/-- Witness for C5: a table holding a quick-mode flag and a corrupted
facility section still reconstructs, with the flag intact. -/
theorem getWasteAudit_skips_malformed_section_witness :
    getWasteAudit 1
        ([⟨1, "isQuickMode", .bool true, "Quick mode flag"⟩] ++
          (⟨1, "facilityInfrastructure", .raw "not json at all", "corrupt"⟩ : Row) :: []) =
      some (reconstructFrom 1 ([⟨1, "isQuickMode", .bool true, "Quick mode flag"⟩] ++ [])) :=
  getWasteAudit_skips_malformed_section [⟨1, "isQuickMode", .bool true, "Quick mode flag"⟩] []
    1 "facilityInfrastructure" "not json at all" "corrupt" (by decide)

lemma reconStep_unknown_key {acc : WasteAuditRec} {row : Row}
    (h : row.item_key ∉ knownKeys) : reconStep acc row = acc := by
  have h1 : row.item_key ≠ "facilityInfrastructure" := fun e => h (by rw [e]; decide)
  have h2 : row.item_key ≠ "wasteStreamsAssessment" := fun e => h (by rw [e]; decide)
  have h3 : row.item_key ≠ "specialWasteManagement" := fun e => h (by rw [e]; decide)
  have h4 : row.item_key ≠ "organicWasteComposting" := fun e => h (by rw [e]; decide)
  have h5 : row.item_key ≠ "wastePreventionMeasures" := fun e => h (by rw [e]; decide)
  have h6 : row.item_key ≠ "behavioralTraining" := fun e => h (by rw [e]; decide)
  have h7 : row.item_key ≠ "completedSections" := fun e => h (by rw [e]; decide)
  have h8 : row.item_key ≠ "isQuickMode" := fun e => h (by rw [e]; decide)
  have h9 : row.item_key ≠ "syncStatus" := fun e => h (by rw [e]; decide)
  have h10 : row.item_key ≠ "lastSaved" := fun e => h (by rw [e]; decide)
  simp [reconStep, h1, h2, h3, h4, h5, h6, h7, h8, h9, h10]

/-- C9 (amended).  An entry whose item key is outside the six section
names and the four scalar metadata names contributes nothing to
reconstruction: as long as the audit keeps at least one other row, adding
such an entry leaves `getWasteAudit` unchanged. -/
theorem getWasteAudit_ignores_unknown_key (pre post : Table) (auditId : Int) (row : Row)
    (hkey : row.item_key ∉ knownKeys) (hid : row.audit_id = auditId)
    (hne : wasteRecords auditId (pre ++ post) ≠ []) :
    getWasteAudit auditId (pre ++ row :: post) = getWasteAudit auditId (pre ++ post) := by
  have hw := wasteRecords_middle pre post auditId row hid
  rw [getWasteAudit_eq_some _ _ (by
      rw [hw]
      exact fun hc => List.cons_ne_nil _ _ (List.append_eq_nil.mp hc).2),
    getWasteAudit_eq_some _ _ hne]
  congr 1
  rw [reconstructFrom, reconstructFrom, hw, wasteRecords_append, List.foldl_append,
    List.foldl_append, List.foldl_cons, reconStep_unknown_key hkey]

/-- Counterexample to C9 as stated: on an empty entry set, adding one
unknown-key entry does change what `getWasteAudit` returns — the audit
flips from not-found to a bare record — because existence is defined as
having at least one row of any key. -/
theorem getWasteAudit_ignores_unknown_key_cex :
    getWasteAudit 1 [⟨1, "wibble", .raw "x", "n"⟩] ≠ getWasteAudit 1 [] := by decide

/-- Witness for C9 at a concrete input. -/
theorem getWasteAudit_ignores_unknown_key_witness :
    getWasteAudit 1 ([⟨1, "syncStatus", .raw "synced", "Synchronization status"⟩] ++
        (⟨1, "auditId", .num 1, "Updated: auditId"⟩ : Row) :: []) =
      getWasteAudit 1 ([⟨1, "syncStatus", .raw "synced", "Synchronization status"⟩] ++ []) :=
  getWasteAudit_ignores_unknown_key [⟨1, "syncStatus", .raw "synced", "Synchronization status"⟩]
    [] 1 ⟨1, "auditId", .num 1, "Updated: auditId"⟩ (by decide) rfl (by decide)

/-- Counterexample to C3 as stated: a non-numeric `completedSections` text
does not surface an error — `getWasteAudit` succeeds and stores the `NaN`
outcome of `parseInt` (modelled as the inner `none`). -/
theorem completedSections_nonnumeric_cex :
    getWasteAudit 1 [⟨1, "completedSections", .raw "abc", "Number of completed sections"⟩]
      = some { auditId := 1, completedSections := some none } := by rfl

/-- C3 (amended).  For every non-numeric stored text, reconstruction
neither raises nor degrades the metadatum to absent: the
`completedSections` field is present and holds `parseInt`'s `NaN`. -/
theorem completedSections_nonnumeric_nan (auditId : Int) (s note : String)
    (h : jsParseIntStr s = none) :
    getWasteAudit auditId [⟨auditId, "completedSections", .raw s, note⟩]
      = some { auditId := auditId, completedSections := some none } := by
  have hw : wasteRecords auditId [⟨auditId, "completedSections", Resp.raw s, note⟩]
      = [⟨auditId, "completedSections", Resp.raw s, note⟩] :=
    wasteRecords_of_all (fun r hr => by
      rw [List.mem_singleton] at hr
      rw [hr])
  rw [getWasteAudit_eq_some _ _ (by rw [hw]; exact List.cons_ne_nil _ _),
    reconstructFrom, hw, List.foldl_cons, List.foldl_nil]
  simp [reconStep, jsParseIntResp, h]

/-- Witness for C3 at a concrete input. -/
theorem completedSections_nonnumeric_nan_witness :
    getWasteAudit 7 [⟨7, "completedSections", .raw "oops", "Number of completed sections"⟩]
      = some { auditId := 7, completedSections := some none } :=
  completedSections_nonnumeric_nan 7 "oops" "Number of completed sections" (by rfl)

/-- Number of stored entries a given audit holds under a given item key. -/
def entriesForKey (tbl : Table) (auditId : Int) (key : String) : Nat :=
  (tbl.filter (fun r => r.audit_id == auditId && r.item_key == key)).length

/-- C1 is violated by the code: `waste_data` has no uniqueness constraint
on `(audit_id, item_key)` — only the autoincrement primary key — so the
`INSERT OR REPLACE` of `updateWasteAudit` never meets a conflict and
appends plain rows.  After a save followed by one update of audit 1, the
`lastSaved` key holds two entries. -/
theorem waste_data_duplicate_lastSaved :
    entriesForKey
        (updateWasteAudit [1] 1 {} "2024-01-02T00:00:00.000Z"
          (saveWasteAudit [1] 1 {} "2024-01-01T00:00:00.000Z" []).2).2
        1 "lastSaved" = 2 := by rfl

/-- C10.  With foreign keys on and no parent row in `audits`, the very
first insert of either write path fails, the transaction rolls back
leaving `waste_data` untouched, `saveWasteAudit` reports the failure with
its message list, and `updateWasteAudit` returns `false`. -/
theorem missing_parent_audit_rejected (audits : List Int) (auditId : Int)
    (d u : WasteAuditDraft) (now : String) (tbl : Table) (ha : auditId ∉ audits) :
    saveWasteAudit audits auditId d now tbl =
      ({ success := false,
         validationErrors := some ["Failed to save waste audit: FOREIGN KEY constraint failed"] },
        tbl) ∧
      updateWasteAudit audits auditId u now tbl = (false, tbl) := by
  constructor
  · have herr : insertRows audits (saveRows auditId d now) (deleteWasteRows auditId tbl)
        = .error "FOREIGN KEY constraint failed" :=
      insertRows_fk_error (deleteWasteRows auditId tbl) (saveRows_ne_nil auditId d now)
        (fun r hr => saveRows_audit_id hr) ha
    simp [saveWasteAudit, herr]
  · have herr : insertRows audits (updRows auditId u now) tbl
        = .error "FOREIGN KEY constraint failed" :=
      insertRows_fk_error tbl (updRows_ne_nil auditId u now)
        (fun r hr => updRows_audit_id hr) ha
    simp [updateWasteAudit, herr]

/-- Witness for C10 at a concrete input. -/
theorem missing_parent_audit_rejected_witness :
    saveWasteAudit [2] 1 {} "2024-01-01T00:00:00.000Z" [] =
      ({ success := false,
         validationErrors := some ["Failed to save waste audit: FOREIGN KEY constraint failed"] },
        []) ∧
      updateWasteAudit [2] 1 {} "2024-01-01T00:00:00.000Z" [] = (false, []) :=
  missing_parent_audit_rejected [2] 1 {} {} "2024-01-01T00:00:00.000Z" [] (by decide)

/- ### Bounds for the overall-score blocks -/

lemma jsRound_range {q : ℚ} (h0 : 0 ≤ q) (h1 : q ≤ 100) :
    0 ≤ jsRound q ∧ jsRound q ≤ 100 := by
  unfold jsRound
  constructor
  · exact Int.floor_nonneg.mpr (by linarith)
  · calc ⌊q + 1 / 2⌋ ≤ ⌊(201 : ℚ) / 2⌋ := Int.floor_le_floor (by linarith)
    _ = 100 := by norm_num [Int.floor_eq_iff]

lemma implPoints_nonneg (x : ImplementationLevel) : 0 ≤ implPoints x := by
  cases x <;> norm_num [implPoints]

lemma implPoints_le_four (x : ImplementationLevel) : implPoints x ≤ 4 := by
  cases x <;> norm_num [implPoints]

lemma calculatePreventionScore_bounds (o : Option WastePreventionMeasures) :
    0 ≤ calculatePreventionScore o ∧ calculatePreventionScore o ≤ 100 := by
  cases o with
  | none => norm_num [calculatePreventionScore]
  | some p =>
    have n1 := implPoints_nonneg p.procurementPolicy
    have n2 := implPoints_nonneg p.reusableCupsBottles
    have n3 := implPoints_nonneg p.waterFountainsRefillStations
    have n4 := implPoints_nonneg p.paperlessCommunication
    have n5 := implPoints_nonneg p.donationSystem
    have n6 := implPoints_nonneg p.repairCafe
    have n7 := implPoints_nonneg p.bulkBuying
    have n8 := implPoints_nonneg p.eliminateSingleUse
    have u1 := implPoints_le_four p.procurementPolicy
    have u2 := implPoints_le_four p.reusableCupsBottles
    have u3 := implPoints_le_four p.waterFountainsRefillStations
    have u4 := implPoints_le_four p.paperlessCommunication
    have u5 := implPoints_le_four p.donationSystem
    have u6 := implPoints_le_four p.repairCafe
    have u7 := implPoints_le_four p.bulkBuying
    have u8 := implPoints_le_four p.eliminateSingleUse
    simp only [calculatePreventionScore]
    constructor
    · exact mul_nonneg (div_nonneg (by linarith) (by norm_num)) (by norm_num)
    · rw [div_mul_eq_mul_div, div_le_iff (by norm_num : (0 : ℚ) < 8 * 4)]
      linarith

lemma foldl_add_sum (f : WasteStreamAssessment → ℚ) (l : List WasteStreamAssessment) (c : ℚ) :
    l.foldl (fun sum s => sum + f s) c = c + (l.map f).sum := by
  induction l generalizing c with
  | nil => simp
  | cons s rest ih => simp [ih, add_assoc]

lemma contaminationOr5_bounds {s : WasteStreamAssessment}
    (h : s.contaminationLevel = 0 ∨ (1 ≤ s.contaminationLevel ∧ s.contaminationLevel ≤ 5)) :
    1 ≤ contaminationOr5 s ∧ contaminationOr5 s ≤ 5 := by
  rcases h with h | ⟨h1, h2⟩
  · norm_num [contaminationOr5, h]
  · rw [contaminationOr5, if_neg (by intro e; rw [e] at h1; linarith)]
    exact ⟨h1, h2⟩

lemma avgContamination_bounds {l : List WasteStreamAssessment} (hne : 0 < l.length)
    (hlev : ∀ s ∈ l, s.contaminationLevel = 0 ∨
      (1 ≤ s.contaminationLevel ∧ s.contaminationLevel ≤ 5)) :
    1 ≤ avgContamination l ∧ avgContamination l ≤ 5 := by
  have hfold : l.foldl (fun sum s => sum + contaminationOr5 s) 0 = (l.map contaminationOr5).sum := by
    simpa using foldl_add_sum contaminationOr5 l 0
  have hn : (0 : ℚ) < (l.length : ℚ) := by exact_mod_cast hne
  have hup : (l.map contaminationOr5).sum ≤ (l.length : ℚ) * 5 := by
    have h := List.sum_le_card_nsmul (l.map contaminationOr5) 5 (by
      intro x hx
      obtain ⟨s, hs, rfl⟩ := List.mem_map.mp hx
      exact (contaminationOr5_bounds (hlev s hs)).2)
    simpa [nsmul_eq_mul] using h
  have hlo : (l.length : ℚ) * 1 ≤ (l.map contaminationOr5).sum := by
    have h := List.card_nsmul_le_sum (l.map contaminationOr5) 1 (by
      intro x hx
      obtain ⟨s, hs, rfl⟩ := List.mem_map.mp hx
      exact (contaminationOr5_bounds (hlev s hs)).1)
    simpa [nsmul_eq_mul] using h
  constructor
  · rw [avgContamination, hfold, le_div_iff hn]
    linarith
  · rw [avgContamination, hfold, div_le_iff hn]
    linarith

lemma contaminationScore_bounds {l : List WasteStreamAssessment}
    (hlev : ∀ s ∈ l, s.contaminationLevel = 0 ∨
      (1 ≤ s.contaminationLevel ∧ s.contaminationLevel ≤ 5)) :
    0 ≤ contaminationScore l ∧ contaminationScore l ≤ contaminationMax l := by
  by_cases h : l.length > 0
  · obtain ⟨h1, h2⟩ := avgContamination_bounds h hlev
    rw [contaminationScore, if_pos h, contaminationMax, if_pos h]
    constructor <;> linarith
  · rw [contaminationScore, if_neg h, contaminationMax, if_neg h]
    norm_num

lemma infrastructureScore_bounds (d : WasteAuditDraft) :
    0 ≤ infrastructureScore d ∧ infrastructureScore d ≤ 20 := by
  rw [infrastructureScore]
  have h0 : (0 : ℚ) ≤ ((binInventoryOf d).length : ℚ) * 2 := by positivity
  have h1 : (0 : ℚ) ≤ min (((binInventoryOf d).length : ℚ) * 2) 10 := le_min h0 (by norm_num)
  have h2 := min_le_right (((binInventoryOf d).length : ℚ) * 2) (10 : ℚ)
  split_ifs <;> constructor <;> linarith

lemma trainingScore_bounds (o : Option BehavioralTraining) :
    0 ≤ trainingScore o ∧ trainingScore o ≤ trainingMax o := by
  cases o with
  | none => norm_num [trainingScore, trainingMax]
  | some b =>
    rw [trainingScore, trainingMax]
    split_ifs <;> constructor <;> norm_num

/-- The C6 scenario record: an empty bin inventory, an empty assessments
list, and no prevention or training sections. -/
def emptySectionsDraft : WasteAuditDraft :=
  { facilityInfrastructure := some
      { binInventory := [], totalBins := 0, outdoorBinsPresent := false },
    wasteStreamsAssessment := some { assessments := [] } }

/-- A record with a single stream whose contamination level is 6 — above
the documented 1-5 scale but representable in the `number` field. -/
def overallScoreCexDraft : WasteAuditDraft :=
  { wasteStreamsAssessment := some { assessments :=
      [{ wasteStream := .general, estimatedWeeklyVolumeLitres := 0,
         collectionFrequency := .weekly, collectionDays := [], contaminationLevel := 6,
         commonContaminants := [] }] } }

/-- C6 (amended).  When every stream's contamination level is either the
falsy 0 (read as worst-case 5) or inside the documented 1-5 scale,
`calculateOverallScore` is an integer in [0, 100]; and the record with an
empty bin inventory, an empty assessments list and no prevention or
training sections scores exactly 0. -/
theorem calculateOverallScore_range :
    (∀ d : WasteAuditDraft,
      (∀ s ∈ streamsOf d, s.contaminationLevel = 0 ∨
        (1 ≤ s.contaminationLevel ∧ s.contaminationLevel ≤ 5)) →
      0 ≤ calculateOverallScore d ∧ calculateOverallScore d ≤ 100) ∧
    calculateOverallScore emptySectionsDraft = 0 := by
  constructor
  · intro d hlev
    obtain ⟨hi0, hi1⟩ := infrastructureScore_bounds d
    obtain ⟨hp0, hp1⟩ := calculatePreventionScore_bounds d.wastePreventionMeasures
    obtain ⟨ht0, ht1⟩ := trainingScore_bounds d.behavioralTraining
    obtain ⟨hc0, hc1⟩ := contaminationScore_bounds hlev
    have htm : trainingMax d.behavioralTraining = 0 ∨ trainingMax d.behavioralTraining = 25 := by
      cases d.behavioralTraining <;> simp [trainingMax]
    have hcm : contaminationMax (streamsOf d) = 0 ∨ contaminationMax (streamsOf d) = 25 := by
      rw [contaminationMax]
      split_ifs <;> simp
    have hden : (0 : ℚ) < overallScoreDen d := by
      rw [overallScoreDen]
      rcases htm with h | h <;> rcases hcm with h2 | h2 <;> rw [h, h2] <;> norm_num
    have hps : 0 ≤ calculatePreventionScore d.wastePreventionMeasures / 100 * 30 :=
      mul_nonneg (div_nonneg hp0 (by norm_num)) (by norm_num)
    have hps1 : calculatePreventionScore d.wastePreventionMeasures / 100 * 30 ≤ 30 := by
      rw [div_mul_eq_mul_div, div_le_iff (by norm_num : (0 : ℚ) < 100)]
      linarith
    have hnum0 : 0 ≤ overallScoreNum d := by
      rw [overallScoreNum]
      linarith
    have hnum1 : overallScoreNum d ≤ overallScoreDen d := by
      rw [overallScoreNum, overallScoreDen]
      linarith
    rw [calculateOverallScore, if_pos hden]
    refine jsRound_range ?_ ?_
    · exact mul_nonneg (div_nonneg hnum0 (le_of_lt hden)) (by norm_num)
    · have hr : overallScoreNum d / overallScoreDen d ≤ 1 := (div_le_one hden).mpr hnum1
      linarith
  · norm_num [calculateOverallScore, emptySectionsDraft, overallScoreNum, overallScoreDen,
      infrastructureScore, trainingScore, trainingMax, contaminationScore, contaminationMax,
      binInventoryOf, streamsOf, calculatePreventionScore, jsRound]

/-- Witness for C6 at a concrete input. -/
theorem calculateOverallScore_range_witness :
    0 ≤ calculateOverallScore emptySectionsDraft ∧
      calculateOverallScore emptySectionsDraft ≤ 100 :=
  calculateOverallScore_range.1 emptySectionsDraft
    (by norm_num [streamsOf, emptySectionsDraft])

/-- Counterexample to C6 as stated: a record whose single stream has the
representable contamination level 6 scores -8, outside [0, 100]. -/
theorem calculateOverallScore_out_of_range_cex :
    ¬ (0 ≤ calculateOverallScore overallScoreCexDraft ∧
        calculateOverallScore overallScoreCexDraft ≤ 100) := by
  have h : calculateOverallScore overallScoreCexDraft = -8 := by
    norm_num [calculateOverallScore, overallScoreCexDraft, overallScoreNum, overallScoreDen,
      infrastructureScore, trainingScore, trainingMax, contaminationScore, contaminationMax,
      avgContamination, contaminationOr5, binInventoryOf, streamsOf, calculatePreventionScore,
      jsRound]
  rw [h]
  norm_num

/- ### The metrics accumulators as sums -/

lemma metricsStep_cost (acc : MetricsAcc) (s : WasteStreamAssessment) :
    (metricsStep acc s).totalAnnualCost = acc.totalAnnualCost + s.annualCostEuros.getD 0 := by
  rcases hc : s.annualCostEuros with _ | c <;>
    simp only [metricsStep, hc, Option.getD_none, Option.getD_some] <;>
    split_ifs <;> simp_all

lemma metricsStep_volume (acc : MetricsAcc) (s : WasteStreamAssessment) :
    (metricsStep acc s).totalWeeklyVolume
      = acc.totalWeeklyVolume + s.estimatedWeeklyVolumeLitres := by
  rcases hc : s.annualCostEuros with _ | c <;>
    simp only [metricsStep, hc] <;> split_ifs <;> simp_all

lemma metricsStep_recyclable (acc : MetricsAcc) (s : WasteStreamAssessment) :
    (metricsStep acc s).recyclableVolume = acc.recyclableVolume +
      (if s.wasteStream = WasteStream.dry_recyclables ∨ s.wasteStream = WasteStream.organic then
        s.estimatedWeeklyVolumeLitres else 0) := by
  rcases hc : s.annualCostEuros with _ | c <;>
    simp only [metricsStep, hc] <;> split_ifs <;> simp_all

lemma metricsStep_issues (acc : MetricsAcc) (s : WasteStreamAssessment) :
    (metricsStep acc s).contaminationIssues = acc.contaminationIssues +
      (if s.contaminationLevel > 3 then 1 else 0) := by
  rcases hc : s.annualCostEuros with _ | c <;>
    simp only [metricsStep, hc] <;> split_ifs <;> simp_all

lemma foldl_metricsStep (l : List WasteStreamAssessment) (acc : MetricsAcc) :
    l.foldl metricsStep acc =
      { totalAnnualCost := acc.totalAnnualCost + (l.map (fun s => s.annualCostEuros.getD 0)).sum,
        totalWeeklyVolume :=
          acc.totalWeeklyVolume + (l.map (fun s => s.estimatedWeeklyVolumeLitres)).sum,
        recyclableVolume := acc.recyclableVolume +
          ((l.filter (fun s => decide (s.wasteStream = WasteStream.dry_recyclables ∨
              s.wasteStream = WasteStream.organic))).map
            (fun s => s.estimatedWeeklyVolumeLitres)).sum,
        contaminationIssues := acc.contaminationIssues +
          (l.filter (fun s => decide (s.contaminationLevel > 3))).length } := by
  induction l generalizing acc with
  | nil => cases acc <;> simp
  | cons s rest ih =>
    rw [List.foldl_cons, ih]
    refine MetricsAcc.ext ?_ ?_ ?_ ?_
    · simp [metricsStep_cost]
      ring
    · simp [metricsStep_volume]
      ring
    · by_cases hs : s.wasteStream = WasteStream.dry_recyclables ∨ s.wasteStream = WasteStream.organic
      · simp [List.filter_cons, hs, metricsStep_recyclable]
        ring
      · simp [List.filter_cons, hs, metricsStep_recyclable]
    · by_cases hc : s.contaminationLevel > 3
      · simp [List.filter_cons, hc, metricsStep_issues]
        ring
      · simp [List.filter_cons, hc, metricsStep_issues]

/- ### The metric formulas as the specification words them -/

/-- Total weekly volume: the sum of `estimatedWeeklyVolumeLitres` over all
assessments. -/
def totalWeeklyVolumeSpec (data : WasteAuditDraft) : ℚ :=
  ((streamsOf data).map (fun s => s.estimatedWeeklyVolumeLitres)).sum

/-- Recyclable volume: the sum of weekly volume over the dry-recyclables
and organic streams. -/
def recyclableVolumeSpec (data : WasteAuditDraft) : ℚ :=
  (((streamsOf data).filter (fun s => decide (s.wasteStream = WasteStream.dry_recyclables ∨
      s.wasteStream = WasteStream.organic))).map
    (fun s => s.estimatedWeeklyVolumeLitres)).sum

/-- Total annual cost: the sum of `annualCostEuros` with absent costs
counting zero. -/
def totalAnnualCostSpec (data : WasteAuditDraft) : ℚ :=
  ((streamsOf data).map (fun s => s.annualCostEuros.getD 0)).sum

/-- The recycling-rate formula exactly as the claim words it: ratio times
100 rounded to two decimals, zero only in the `totalVolume = 0` case. -/
def recyclingRateClaimed (data : WasteAuditDraft) : ℚ :=
  if totalWeeklyVolumeSpec data = 0 then 0
  else round2 (recyclableVolumeSpec data / totalWeeklyVolumeSpec data * 100)

/-- The C7 scenario stream: 500 L weekly of dry recyclables, contamination
level 2, 1000 euro annual cost. -/
def scenarioStream : WasteStreamAssessment :=
  { wasteStream := .dry_recyclables, estimatedWeeklyVolumeLitres := 500,
    collectionFrequency := .weekly, collectionDays := [], contaminationLevel := 2,
    commonContaminants := [], annualCostEuros := some 1000 }

/-- The C7 scenario record. -/
def metricsScenarioDraft : WasteAuditDraft :=
  { wasteStreamsAssessment := some { assessments := [scenarioStream] } }

/-- C7 (amended).  The four metric formulas, with the recycling-rate
fallback widened from "zero when the total volume is zero" to "zero unless
the total volume is positive" — which is what the code's `> 0` guard
computes; plus the 500 L scenario. -/
theorem calculateWasteMetrics_formulas :
    (∀ (d : WasteAuditDraft) (userCount : ℚ),
      (calculateWasteMetrics d userCount).estimatedAnnualWasteCost = totalAnnualCostSpec d ∧
      (calculateWasteMetrics d userCount).potentialSavingsFromContaminationReduction =
        (if ∃ s ∈ streamsOf d, s.contaminationLevel > 3 then totalAnnualCostSpec d * 0.15
          else 0) ∧
      (calculateWasteMetrics d userCount).recyclingRateEstimate =
        round2 (if 0 < totalWeeklyVolumeSpec d then
          recyclableVolumeSpec d / totalWeeklyVolumeSpec d * 100 else 0) ∧
      (calculateWasteMetrics d userCount).weeklyWastePerUser =
        round2 (if 0 < userCount then totalWeeklyVolumeSpec d * 0.5 / userCount else 0) ∧
      (calculateWasteMetrics d userCount).carbonFootprintEstimate =
        (jsRound (totalWeeklyVolumeSpec d * 0.5 * 52 * 0.5) : ℚ)) ∧
    calculateWasteMetrics metricsScenarioDraft 50 =
      { estimatedAnnualWasteCost := 1000, potentialSavingsFromContaminationReduction := 0,
        recyclingRateEstimate := 100, weeklyWastePerUser := 5,
        carbonFootprintEstimate := 6500 } := by
  constructor
  · intro d userCount
    have hex : (0 < ((streamsOf d).filter
          (fun s => decide (s.contaminationLevel > 3))).length) ↔
        ∃ s ∈ streamsOf d, s.contaminationLevel > 3 := by
      rw [List.length_pos, Ne, List.filter_eq_nil_iff]
      push_neg
      simp
    simp only [calculateWasteMetrics, foldl_metricsStep, zero_add]
    refine ⟨rfl, ?_, ?_, ?_, rfl⟩
    · exact if_congr hex rfl rfl
    · rfl
    · rfl
  · norm_num [calculateWasteMetrics, streamsOf, metricsScenarioDraft, scenarioStream,
      metricsStep, round2, jsRound]

/-- A record whose single stream is dry recyclables with the representable
weekly volume -5 L. -/
def negativeVolumeDraft : WasteAuditDraft :=
  { wasteStreamsAssessment := some { assessments :=
      [{ wasteStream := .dry_recyclables, estimatedWeeklyVolumeLitres := -5,
         collectionFrequency := .weekly, collectionDays := [], contaminationLevel := 2,
         commonContaminants := [] }] } }

/-- Counterexample to C7 as stated: at total weekly volume -5 the code's
`> 0` guard returns 0 while the claimed formula — zero only when the total
volume IS zero — divides and yields 100. -/
theorem calculateWasteMetrics_negative_volume_cex :
    (calculateWasteMetrics negativeVolumeDraft 50).recyclingRateEstimate ≠
      recyclingRateClaimed negativeVolumeDraft := by
  have h1 : (calculateWasteMetrics negativeVolumeDraft 50).recyclingRateEstimate = 0 := by
    norm_num [calculateWasteMetrics, streamsOf, negativeVolumeDraft, metricsStep, round2, jsRound]
  have h2 : recyclingRateClaimed negativeVolumeDraft = 100 := by
    norm_num [recyclingRateClaimed, totalWeeklyVolumeSpec, recyclableVolumeSpec, streamsOf,
      negativeVolumeDraft, round2, jsRound]
  rw [h1, h2]
  norm_num

/- ### The quick-win contract as the specification words it -/

/-- The five condition checks in declaration order, each paired with the
recommendation it emits (specification: one object per true condition,
fixed content). -/
def quickWinChecks (data : WasteAuditDraft) : List (Bool × (Nat → QuickWin)) :=
  [(!hasRecyclingBins data, addRecyclingBinsWin),
   (decide (poorSignageCount data > 0), improveSignageWin (poorSignageCount data)),
   (decide (contaminatedStreamCount data > 0), contaminationTrainingWin),
   (!championAppointed data, appointChampionWin),
   (compostingOpportunity data, startCompostingWin)]

/-- Numbers the recommendations of the true conditions with monotonically
increasing priorities assigned in declaration order, starting at `p`. -/
def assignPriorities : List (Bool × (Nat → QuickWin)) → Nat → List QuickWin
  | [], _ => []
  | (true, mk) :: rest, p => mk p :: assignPriorities rest (p + 1)
  | (false, _) :: rest, p => assignPriorities rest p

/-- The specification's reading of `generateQuickWins`: one recommendation
per true condition with consecutive priorities from 1 in declaration
order; the result is already ascending in priority and never longer than
five, so the documented sort-and-truncate steps leave it unchanged. -/
def specQuickWins (data : WasteAuditDraft) : List QuickWin :=
  assignPriorities (quickWinChecks data) 1

/-- The C8 scenario record: one dry-recyclables bin with signage absent,
and no behavioural-training section (hence no champion appointed). -/
def scenarioBin : BinInventoryItem :=
  { location := .main_hall, binType := .dry_recyclables, sizeInLitres := 240,
    colour := .blue, lidType := .open_top, signagePresent := false, signageQuality := 1 }

/-- The C8 scenario record around that bin. -/
def signageAbsentDraft : WasteAuditDraft :=
  { facilityInfrastructure := some
      { binInventory := [scenarioBin], totalBins := 1, outdoorBinsPresent := false } }

/-- C8.  `generateQuickWins` emits exactly one recommendation per true
condition among its five checks, priorities assigned in declaration order,
sorted ascending and truncated to at most five; in the scenario record the
result is exactly the `appoint-champion` entry — so `add-recycling-bins`
is absent and `appoint-champion` present. -/
theorem generateQuickWins_spec :
    (∀ data : WasteAuditDraft, generateQuickWins data = specQuickWins data) ∧
      generateQuickWins signageAbsentDraft = [appointChampionWin 1] := by
  constructor
  · intro data
    simp only [generateQuickWins, specQuickWins, quickWinChecks]
    cases h1 : hasRecyclingBins data <;>
      rcases Nat.eq_zero_or_pos (poorSignageCount data) with h2 | h2 <;>
      rcases Nat.eq_zero_or_pos (contaminatedStreamCount data) with h3 | h3 <;>
      cases h4 : championAppointed data <;>
      cases h5 : compostingOpportunity data <;>
      simp [h1, h2, h3, h4, h5, Nat.pos_iff_ne_zero, assignPriorities, sortByPriority,
        List.insertionSort, List.orderedInsert, addRecyclingBinsWin, improveSignageWin,
        contaminationTrainingWin, appointChampionWin, startCompostingWin, Nat.lt_irrefl]
  · decide
